import Mathlib

/-!
Shallow embedding of the view layer of the `blogicum` blog application
(`blogicum/blog/views.py`).  The relational store is modelled as lists of
records; each Django view function becomes a pure Lean function from the
store and the request data to a response (and, for mutating views, a new
store).  Machine details that the views never observe (template engines,
HTTP headers) are elided; the control flow, query predicates and
mutations follow the Python source line by line.
-/

namespace Blogicum

/-- A user record (`django.contrib.auth` user): primary key and username. -/
structure User where
  id : Nat
  username : String
  firstName : String
  deriving DecidableEq, Repr

/-- A blog category: primary key, slug and publication flag
(`blog.models.Category`). -/
structure Category where
  id : Nat
  slug : String
  is_published : Bool
  deriving DecidableEq, Repr

/-- A blog post (`blog.models.Post`): author / category / location foreign
keys are primary-key references; `pub_date` is an abstract timestamp. -/
structure Post where
  id : Nat
  author : Nat
  category : Nat
  location : Nat
  is_published : Bool
  pub_date : Nat
  title : String
  text : String
  deriving DecidableEq, Repr

/-- A comment (`blog.models.Comment`): author and post foreign keys. -/
structure Comment where
  id : Nat
  author : Nat
  post : Nat
  text : String
  deriving DecidableEq, Repr

/-- The relational store consumed by the views. -/
structure DB where
  users : List User
  categories : List Category
  posts : List Post
  comments : List Comment
  deriving DecidableEq, Repr

/-- HTTP request method, as distinguished by the views. -/
inductive Method where
  | GET
  | POST
  deriving DecidableEq, Repr

/-- Redirect targets produced by the views (`redirect(...)` /
`reverse_lazy(...)` calls). -/
inductive Target where
  | login
  | postDetail (id : Nat)
  | profileOf (username : String)
  deriving DecidableEq, Repr

/-- The form-bearing template pages the views render. -/
inductive FormPage where
  | registrationForm
  | userEdit
  | postCreate
  | postConfirmDelete
  | commentPage
  deriving DecidableEq, Repr

/-- Responses a view can produce: rendered pages (with the data placed in
the template context), redirects, and the error responses Django produces
for `get_object_or_404` failures and `require_http_methods` violations. -/
inductive Response where
  | renderIndex (items : List Post)
  | renderDetail (post : Post) (comments : List Comment)
  | renderCategory (category : Category) (items : List Post)
  | renderProfile (author : User) (items : List Post)
  | renderForm (page : FormPage) (hasErrors : Bool)
  | redirect (target : Target)
  | notFound
  | methodNotAllowed
  deriving DecidableEq, Repr

/-- `request.user == someUser` in Django: an `AnonymousUser` equals no
stored user, and model instances compare by primary key. -/
def isUser (user : Option User) (pk : Nat) : Bool :=
  match user with
  | some u => u.id == pk
  | none => false

/-- `Category.objects` lookup by primary key (foreign-key dereference). -/
def findCategory (db : DB) (cid : Nat) : Option Category :=
  db.categories.find? (fun c => c.id == cid)

/-- The ORM filter `category__is_published=True` seen from a post:
the referenced category exists and is published. -/
def categoryPublished (db : DB) (cid : Nat) : Bool :=
  match findCategory db cid with
  | some c => c.is_published
  | none => false

/-- The public-visibility queryset predicate used by `index`,
`category_posts`, anonymous `post_detail` and non-owner `profile`:
`is_published=True, category__is_published=True, pub_date__lte=now`. -/
def publiclyVisible (db : DB) (now : Nat) (p : Post) : Bool :=
  p.is_published && categoryPublished db p.category && decide (p.pub_date ≤ now)

/-- Insert a post into a list ordered by descending `pub_date`. -/
def insertDesc (p : Post) : List Post → List Post
  | [] => [p]
  | q :: qs => if p.pub_date ≤ q.pub_date then q :: insertDesc p qs else p :: q :: qs

/-- `order_by('-pub_date')`: sort posts by descending publication date. -/
def sortDesc : List Post → List Post
  | [] => []
  | p :: ps => insertDesc p (sortDesc ps)

/-- `Paginator(l, 10).num_pages`: ceiling division, at least one page. -/
def numPages (l : List Post) : Nat :=
  max 1 ((l.length + 9) / 10)

/-- The object list of page `n` (1-based) of `Paginator(l, 10)`. -/
def pageItems (l : List Post) (n : Nat) : List Post :=
  (l.drop ((n - 1) * 10)).take 10

/-- `Paginator(l, 10).get_page(page_number)`: a missing or non-integer
page number gives page 1; a number below 1 or above `num_pages` gives the
last page; otherwise the requested page. -/
def getPage (l : List Post) (pn : Option Nat) : List Post :=
  match pn with
  | none => pageItems l 1
  | some n =>
      if n < 1 then pageItems l (numPages l)
      else if numPages l < n then pageItems l (numPages l)
      else pageItems l n

/-- The queryset of `index`: publicly visible posts, newest first. -/
def indexList (db : DB) (now : Nat) : List Post :=
  sortDesc (db.posts.filter (publiclyVisible db now))

/-- The view `index(request)`. -/
def index (db : DB) (now : Nat) (pn : Option Nat) : Response :=
  .renderIndex (getPage (indexList db now) pn)

/-- `post.comments.all()`: every comment whose post foreign key is `p`. -/
def commentsOf (db : DB) (pid : Nat) : List Comment :=
  db.comments.filter (fun c => c.post == pid)

/-- The view `post_detail(request, id)`: an authenticated user is served
from the queryset `publicly visible ∨ authored by the requester`; an
anonymous user only from the publicly visible queryset; `get_object_or_404`
by primary key. -/
def post_detail (db : DB) (user : Option User) (now : Nat) (id : Nat) : Response :=
  match user with
  | some u =>
      match (db.posts.filter
          (fun p => publiclyVisible db now p || p.author == u.id)).find?
          (fun p => p.id == id) with
      | some p => .renderDetail p (commentsOf db p.id)
      | none => .notFound
  | none =>
      match (db.posts.filter (publiclyVisible db now)).find?
          (fun p => p.id == id) with
      | some p => .renderDetail p (commentsOf db p.id)
      | none => .notFound

/-- The queryset of `category_posts` once the category is resolved:
`category=category, is_published=True, pub_date__lte=now`, newest first. -/
def categoryList (db : DB) (now : Nat) (cat : Category) : List Post :=
  sortDesc (db.posts.filter
    (fun p => p.category == cat.id && p.is_published && decide (p.pub_date ≤ now)))

/-- The view `category_posts(request, category_slug)`:
`get_object_or_404(Category.objects.filter(is_published=True), slug=...)`,
then the paginated listing. -/
def category_posts (db : DB) (now : Nat) (slug : String) (pn : Option Nat) : Response :=
  match db.categories.find? (fun c => c.is_published && c.slug == slug) with
  | none => .notFound
  | some cat => .renderCategory cat (getPage (categoryList db now cat) pn)

/-- The queryset of `profile` for author `a` viewed by `user`: all of the
author's posts when the viewer is the author, otherwise only the publicly
visible ones; newest first. -/
def profileList (db : DB) (user : Option User) (now : Nat) (a : User) : List Post :=
  if isUser user a.id then
    sortDesc (db.posts.filter (fun p => p.author == a.id))
  else
    sortDesc (db.posts.filter (fun p => p.author == a.id && publiclyVisible db now p))

/-- The view `profile(request, username)`: `get_object_or_404(User,
username=username)`, then the paginated listing. -/
def profile (db : DB) (user : Option User) (now : Nat) (username : String)
    (pn : Option Nat) : Response :=
  match db.users.find? (fun x => x.username == username) with
  | none => .notFound
  | some a => .renderProfile a (getPage (profileList db user now a) pn)

/-- A fresh primary key allocated on `save()` of a new record. -/
def freshId (ids : List Nat) : Nat :=
  ids.foldr max 0 + 1

/-- Submitted `UserCreationForm` data: validity verdict plus the cleaned
username. -/
structure RegForm where
  valid : Bool
  username : String
  deriving DecidableEq, Repr

/-- Submitted `UserEditForm` data. -/
structure UserForm where
  valid : Bool
  firstName : String
  deriving DecidableEq, Repr

/-- Submitted `PostForm` data. -/
structure PostForm where
  valid : Bool
  title : String
  text : String
  category : Nat
  location : Nat
  is_published : Bool
  pub_date : Nat
  deriving DecidableEq, Repr

/-- Submitted `CommentForm` data. -/
structure CommentForm where
  valid : Bool
  text : String
  deriving DecidableEq, Repr

/-- The view `registration(request)`: a valid POST creates the user and
redirects to login; an invalid POST re-renders the bound form (with its
field errors); a GET renders a blank form. -/
def registration (db : DB) (method : Method) (form : RegForm) : Response × DB :=
  match method with
  | .POST =>
      if form.valid then
        (.redirect .login,
         { db with users := db.users ++ [⟨freshId (db.users.map (fun x => x.id)), form.username, ""⟩] })
      else (.renderForm .registrationForm true, db)
  | .GET => (.renderForm .registrationForm false, db)

/-- The view `edit_profile(request)` (`@login_required`): a valid POST
saves the form onto `request.user` and redirects to the profile; an
invalid POST re-renders the bound form; a GET renders the prefilled form. -/
def edit_profile (db : DB) (user : Option User) (method : Method)
    (form : UserForm) : Response × DB :=
  match user with
  | none => (.redirect .login, db)
  | some u =>
      match method with
      | .POST =>
          if form.valid then
            (.redirect (.profileOf u.username),
             { db with users := List.map
                          (fun x => if x.id == u.id then { x with firstName := form.firstName } else x)
                          db.users })
          else (.renderForm .userEdit true, db)
      | .GET => (.renderForm .userEdit false, db)

/-- `PostCreateView` (`LoginRequiredMixin, CreateView`): anonymous users
are redirected to login; a valid POST saves a new post with
`form.instance.author = request.user` and redirects to the author's
profile; an invalid POST re-renders the form; a GET renders it blank. -/
def postCreateView (db : DB) (user : Option User) (method : Method)
    (form : PostForm) : Response × DB :=
  match user with
  | none => (.redirect .login, db)
  | some u =>
      match method with
      | .POST =>
          if form.valid then
            (.redirect (.profileOf u.username),
             { db with posts := db.posts ++
                [⟨freshId (db.posts.map (fun x => x.id)), u.id, form.category,
                  form.location, form.is_published, form.pub_date, form.title, form.text⟩] })
          else (.renderForm .postCreate true, db)
      | .GET => (.renderForm .postCreate false, db)

/-- `PostUpdateView`: its overridden `dispatch` runs first, so the object
is fetched (404 when missing) and the author check performed before the
`LoginRequiredMixin` check ever runs; a non-author — including an
anonymous user — is redirected to the post's detail page.  Only when the
requester is the author does `super().dispatch` (login check, then the
form machinery) execute. -/
def postUpdateView (db : DB) (user : Option User) (method : Method)
    (postId : Nat) (form : PostForm) : Response × DB :=
  match db.posts.find? (fun p => p.id == postId) with
  | none => (.notFound, db)
  | some p =>
      if !(isUser user p.author) then (.redirect (.postDetail p.id), db)
      else
        match user with
        | none => (.redirect .login, db)
        | some _ =>
            match method with
            | .POST =>
                if form.valid then
                  (.redirect (.postDetail p.id),
                   { db with posts := db.posts.map (fun x =>
                      if x.id == p.id then
                        { x with title := form.title, text := form.text,
                                 category := form.category, location := form.location,
                                 is_published := form.is_published, pub_date := form.pub_date }
                      else x) })
                else (.renderForm .postCreate true, db)
            | .GET => (.renderForm .postCreate false, db)

/-- `PostDeleteView`: same `dispatch` structure as `PostUpdateView`; a
POST by the author deletes the post and redirects to the author's
profile; a GET renders the confirmation page.  (Cascaded deletion of the
post's comments is performed by the data layer, outside the views.) -/
def postDeleteView (db : DB) (user : Option User) (method : Method)
    (postId : Nat) : Response × DB :=
  match db.posts.find? (fun p => p.id == postId) with
  | none => (.notFound, db)
  | some p =>
      if !(isUser user p.author) then (.redirect (.postDetail p.id), db)
      else
        match user with
        | none => (.redirect .login, db)
        | some u =>
            match method with
            | .POST =>
                (.redirect (.profileOf u.username),
                 { db with posts := db.posts.filter (fun x => !(x.id == p.id)) })
            | .GET => (.renderForm .postConfirmDelete false, db)

/-- The view `add_comment(request, post_id)` (`@login_required`, then
`@require_http_methods(['POST'])`): anonymous requests are redirected to
login before the method check; an authenticated GET gets 405; a POST
fetches the post (404 when missing), and whether or not the form is valid
the response is a redirect to the post's detail page — a valid form first
saves a new comment with the requester as author. -/
def add_comment (db : DB) (user : Option User) (method : Method)
    (postId : Nat) (form : CommentForm) : Response × DB :=
  match user with
  | none => (.redirect .login, db)
  | some u =>
      match method with
      | .GET => (.methodNotAllowed, db)
      | .POST =>
          match db.posts.find? (fun p => p.id == postId) with
          | none => (.notFound, db)
          | some post =>
              if form.valid then
                (.redirect (.postDetail postId),
                 { db with comments := db.comments ++
                    [⟨freshId (db.comments.map (fun x => x.id)), u.id, post.id, form.text⟩] })
              else (.redirect (.postDetail postId), db)

/-- The view `edit_comment(request, post_id, comment_id)`
(`@login_required`): 404 when the post is missing or the comment is
missing or attached to a different post; a non-author is redirected to
the detail page; a valid POST saves the edit and redirects; an invalid
POST re-renders the bound form; a GET renders the prefilled form. -/
def edit_comment (db : DB) (user : Option User) (method : Method)
    (postId : Nat) (commentId : Nat) (form : CommentForm) : Response × DB :=
  match user with
  | none => (.redirect .login, db)
  | some u =>
      match db.posts.find? (fun p => p.id == postId) with
      | none => (.notFound, db)
      | some post =>
          match db.comments.find? (fun c => c.id == commentId && c.post == post.id) with
          | none => (.notFound, db)
          | some comment =>
              if !(comment.author == u.id) then (.redirect (.postDetail postId), db)
              else
                match method with
                | .POST =>
                    if form.valid then
                      (.redirect (.postDetail postId),
                       { db with comments := db.comments.map (fun c =>
                          if c.id == comment.id then { c with text := form.text } else c) })
                    else (.renderForm .commentPage true, db)
                | .GET => (.renderForm .commentPage false, db)

/-- The view `delete_comment(request, post_id, comment_id)`
(`@login_required`): the same lookups and author check as `edit_comment`;
a POST deletes the comment and redirects; a GET renders the confirmation
page. -/
def delete_comment (db : DB) (user : Option User) (method : Method)
    (postId : Nat) (commentId : Nat) : Response × DB :=
  match user with
  | none => (.redirect .login, db)
  | some u =>
      match db.posts.find? (fun p => p.id == postId) with
      | none => (.notFound, db)
      | some post =>
          match db.comments.find? (fun c => c.id == commentId && c.post == post.id) with
          | none => (.notFound, db)
          | some comment =>
              if !(comment.author == u.id) then (.redirect (.postDetail postId), db)
              else
                match method with
                | .POST =>
                    (.redirect (.postDetail postId),
                     { db with comments := db.comments.filter (fun c => !(c.id == comment.id)) })
                | .GET => (.renderForm .commentPage false, db)

/-- The object list placed in the template context by the listing views. -/
def pageOf : Response → List Post
  | .renderIndex items => items
  | .renderCategory _ items => items
  | .renderProfile _ items => items
  | _ => []

/-- Whether a response is a rendered form page. -/
def isRenderForm : Response → Bool
  | .renderForm _ _ => true
  | _ => false

/-- Sample user `alice` (pk 1). -/
def u1 : User := ⟨1, "alice", ""⟩

/-- Sample user `bob` (pk 2). -/
def u2 : User := ⟨2, "bob", ""⟩

/-- Sample published category, slug `tech`. -/
def cat1 : Category := ⟨1, "tech", true⟩

/-- Sample unpublished category, slug `news`. -/
def catUnpub : Category := ⟨2, "news", false⟩

/-- Sample publicly visible post by alice in `tech` (pub date 3). -/
def p1 : Post := ⟨1, 1, 1, 1, true, 3, "t", "x"⟩

/-- Sample unpublished post by alice in the unpublished category with a
future pub date (9). -/
def p2 : Post := ⟨2, 1, 2, 1, false, 9, "d", "y"⟩

/-- Sample comment by bob on post 1. -/
def c1 : Comment := ⟨1, 2, 1, "hi"⟩

/-- Sample comment by alice on post 1. -/
def c2 : Comment := ⟨2, 1, 1, "yo"⟩

/-- Sample comment by bob on the missing post 9. -/
def c3 : Comment := ⟨3, 2, 9, "zz"⟩

/-- Sample store used to instantiate the theorems. -/
def db0 : DB := ⟨[u1, u2], [cat1, catUnpub], [p1, p2], [c1, c2, c3]⟩

/-- Sample valid post form submission. -/
def pform0 : PostForm := ⟨true, "t2", "x2", 1, 1, true, 4⟩

/-- Sample valid comment form submission. -/
def cform0 : CommentForm := ⟨true, "w"⟩

/-- Sample invalid comment form submission. -/
def cformBad : CommentForm := ⟨false, "w"⟩

/-- Sample invalid registration form submission. -/
def rformBad : RegForm := ⟨false, "eve"⟩

/-- Sample invalid profile-edit form submission. -/
def uformBad : UserForm := ⟨false, "A"⟩

theorem mem_insertDesc {p x : Post} {l : List Post} :
    x ∈ insertDesc p l ↔ x = p ∨ x ∈ l := by
  induction l with
  | nil => simp [insertDesc]
  | cons q qs ih =>
      simp only [insertDesc]
      split
      · simp only [List.mem_cons, ih]
        tauto
      · simp only [List.mem_cons]

theorem mem_sortDesc {x : Post} {l : List Post} : x ∈ sortDesc l ↔ x ∈ l := by
  induction l with
  | nil => simp [sortDesc]
  | cons q qs ih =>
      simp only [sortDesc, mem_insertDesc, List.mem_cons, ih]

theorem length_insertDesc (p : Post) (l : List Post) :
    (insertDesc p l).length = l.length + 1 := by
  induction l with
  | nil => rfl
  | cons q qs ih =>
      simp only [insertDesc]
      split
      · simp [ih]
      · simp

theorem length_sortDesc (l : List Post) : (sortDesc l).length = l.length := by
  induction l with
  | nil => rfl
  | cons q qs ih => simp [sortDesc, length_insertDesc, ih]

theorem mem_of_mem_pageItems {x : Post} {l : List Post} {n : Nat}
    (h : x ∈ pageItems l n) : x ∈ l :=
  List.mem_of_mem_drop (List.mem_of_mem_take h)

theorem mem_of_mem_getPage {x : Post} {l : List Post} {pn : Option Nat}
    (h : x ∈ getPage l pn) : x ∈ l := by
  cases pn with
  | none =>
      simp only [getPage] at h
      exact mem_of_mem_pageItems h
  | some n =>
      simp only [getPage] at h
      split at h
      · exact mem_of_mem_pageItems h
      · split at h
        · exact mem_of_mem_pageItems h
        · exact mem_of_mem_pageItems h

theorem length_pageItems_le (l : List Post) (n : Nat) :
    (pageItems l n).length ≤ 10 := by
  simp [pageItems]

theorem length_getPage_le (l : List Post) (pn : Option Nat) :
    (getPage l pn).length ≤ 10 := by
  cases pn with
  | none =>
      simp only [getPage]
      exact length_pageItems_le l 1
  | some n =>
      simp only [getPage]
      split
      · exact length_pageItems_le l _
      · split
        · exact length_pageItems_le l _
        · exact length_pageItems_le l _

theorem one_le_numPages (l : List Post) : 1 ≤ numPages l :=
  le_max_left 1 _

theorem getPage_over {l : List Post} {n : Nat} (h : numPages l < n) :
    getPage l (some n) = pageItems l (numPages l) := by
  have h1 := one_le_numPages l
  simp only [getPage]
  rw [if_neg (by omega), if_pos h]

theorem getPage_in_range {l : List Post} {n : Nat} (h1 : 1 ≤ n)
    (h2 : n ≤ numPages l) : getPage l (some n) = pageItems l n := by
  simp only [getPage]
  rw [if_neg (by omega), if_neg (by omega)]

theorem pageItems_last_ne_nil {l : List Post} (h : l ≠ []) :
    pageItems l (numPages l) ≠ [] := by
  have hlen : 1 ≤ l.length := List.length_pos.mpr h
  have hq : ((l.length + 9) / 10) * 10 ≤ l.length + 9 := Nat.div_mul_le_self _ 10
  have hq1 : 1 ≤ (l.length + 9) / 10 := by
    rw [Nat.le_div_iff_mul_le (by omega)]
    omega
  have hnum : numPages l = (l.length + 9) / 10 := by
    unfold numPages
    omega
  rw [Ne, ← List.length_eq_zero]
  simp only [pageItems, List.length_take, List.length_drop, hnum]
  omega

theorem exists_page {x : Post} {l : List Post} (h : x ∈ l) :
    ∃ n, 1 ≤ n ∧ n ≤ numPages l ∧ x ∈ pageItems l n := by
  obtain ⟨i, hi, hx⟩ := List.mem_iff_getElem.mp h
  refine ⟨i / 10 + 1, by omega, ?_, ?_⟩
  · have hd : (i / 10) * 10 ≤ i := Nat.div_mul_le_self i 10
    have : i / 10 + 1 ≤ (l.length + 9) / 10 := by
      rw [Nat.le_div_iff_mul_le (by omega)]
      omega
    unfold numPages
    omega
  · have hd : (i / 10) * 10 ≤ i := Nat.div_mul_le_self i 10
    have hmod : i % 10 < 10 := Nat.mod_lt _ (by omega)
    have hsum : (i / 10) * 10 + i % 10 = i := by
      rw [Nat.mul_comm]
      exact Nat.div_add_mod i 10
    have hjd : i % 10 < (l.drop ((i / 10) * 10)).length := by
      rw [List.length_drop]
      omega
    have hjt : i % 10 < (pageItems l (i / 10 + 1)).length := by
      simp only [pageItems, Nat.add_sub_cancel, List.length_take, List.length_drop]
      omega
    have hval : (pageItems l (i / 10 + 1)).get ⟨i % 10, hjt⟩ = x := by
      simp only [List.get_eq_getElem]
      simp only [pageItems, Nat.add_sub_cancel]
      rw [List.getElem_take]
      rw [List.getElem_drop]
      simp only [hsum]
      exact hx
    rw [← hval]
    exact List.get_mem _ _ _

theorem find?_key_of_nodup {α : Type} (key : α → Nat) {l : List α}
    (hnd : (l.map key).Nodup) {c : α} (hc : c ∈ l) :
    l.find? (fun x => key x == key c) = some c := by
  induction l with
  | nil => cases hc
  | cons q t ih =>
      rw [List.map_cons, List.nodup_cons] at hnd
      rcases List.mem_cons.mp hc with h | h
      · subst h
        simp [List.find?_cons]
      · have hne : key q ≠ key c := by
          intro he
          exact hnd.1 (he ▸ List.mem_map_of_mem key h)
        rw [List.find?_cons]
        split
        · rename_i hb
          exact absurd (eq_of_beq hb) hne
        · exact ih hnd.2 h

theorem find?_filter_key_of_nodup {α : Type} (key : α → Nat) {l : List α}
    (hnd : (l.map key).Nodup) {c : α} (hc : c ∈ l) (pred : α → Bool)
    (hpred : pred c = true) :
    (l.filter pred).find? (fun x => key x == key c) = some c := by
  have hsub : ((l.filter pred).map key).Sublist (l.map key) :=
    (List.filter_sublist l).map key
  exact find?_key_of_nodup key (hnd.sublist hsub) (List.mem_filter.mpr ⟨hc, hpred⟩)

theorem publiclyVisible_spec {db : DB} {now : Nat} {p : Post}
    (h : publiclyVisible db now p = true) :
    p.is_published = true ∧
      (∃ c, findCategory db p.category = some c ∧ c.is_published = true) ∧
      p.pub_date ≤ now := by
  unfold publiclyVisible at h
  rw [Bool.and_eq_true, Bool.and_eq_true] at h
  obtain ⟨⟨h1, h2⟩, h3⟩ := h
  refine ⟨h1, ?_, of_decide_eq_true h3⟩
  unfold categoryPublished at h2
  cases hm : findCategory db p.category with
  | some c =>
      rw [hm] at h2
      exact ⟨c, rfl, h2⟩
  | none =>
      rw [hm] at h2
      cases h2

/-- C9: whenever `post_detail` succeeds, the rendered context carries every
comment whose post reference is the displayed post, unfiltered by
publication state, comment author or requesting user. -/
theorem C9_detail_lists_all_comments (db : DB) (user : Option User) (now : Nat)
    (id : Nat) (p : Post) (cs : List Comment)
    (h : post_detail db user now id = .renderDetail p cs) :
    ∀ c : Comment, c ∈ cs ↔ c ∈ db.comments ∧ c.post = p.id := by
  have hcs : cs = commentsOf db p.id := by
    cases user with
    | some u =>
        simp only [post_detail] at h
        split at h
        · rw [Response.renderDetail.injEq] at h
          obtain ⟨rfl, h2⟩ := h
          exact h2.symm
        · exact Response.noConfusion h
    | none =>
        simp only [post_detail] at h
        split at h
        · rw [Response.renderDetail.injEq] at h
          obtain ⟨rfl, h2⟩ := h
          exact h2.symm
        · exact Response.noConfusion h
  subst hcs
  intro c
  simp [commentsOf, List.mem_filter]

/-- C9 witness: an anonymous request for sample post 1 renders exactly the
comments attached to post 1. -/
theorem C9_detail_lists_all_comments_witness :
    c1 ∈ commentsOf db0 p1.id ↔ c1 ∈ db0.comments ∧ c1.post = p1.id :=
  C9_detail_lists_all_comments db0 none 5 1 p1 (commentsOf db0 p1.id) (by rfl) c1

/-- C8: a category slug matched only by unpublished categories (or by no
category at all) makes `category_posts` respond not-found. -/
theorem C8_unpublished_category_not_found (db : DB) (now : Nat) (slug : String)
    (pn : Option Nat)
    (h : ∀ c ∈ db.categories, c.slug = slug → c.is_published = false) :
    category_posts db now slug pn = .notFound := by
  have hf : db.categories.find? (fun c => c.is_published && c.slug == slug) = none := by
    rw [List.find?_eq_none]
    intro c hc hcontra
    rw [Bool.and_eq_true] at hcontra
    have hslug : c.slug = slug := eq_of_beq hcontra.2
    rw [h c hc hslug] at hcontra
    cases hcontra.1
  simp [category_posts, hf]

/-- C8 witness: the sample category with slug `news` is unpublished, so
`category_posts(request, "news")` is not-found. -/
theorem C8_unpublished_category_not_found_witness :
    category_posts db0 5 "news" (some 1) = .notFound :=
  C8_unpublished_category_not_found db0 5 "news" (some 1) (by decide)

/-- C7: every page served by `index`, `category_posts` or `profile` holds
at most 10 posts; a page number beyond the number of existing pages makes
each listing serve its last existing page, and that last page is nonempty
whenever the listing itself is. -/
theorem C7_pagination (db : DB) (usr : Option User) (now : Nat)
    (sl un : String) (pn : Option Nat) (n : Nat) :
    (pageOf (index db now pn)).length ≤ 10 ∧
    (pageOf (category_posts db now sl pn)).length ≤ 10 ∧
    (pageOf (profile db usr now un pn)).length ≤ 10 ∧
    (numPages (indexList db now) < n →
      index db now (some n) =
        .renderIndex (pageItems (indexList db now) (numPages (indexList db now)))) ∧
    (∀ cat, db.categories.find? (fun c => c.is_published && c.slug == sl) = some cat →
      numPages (categoryList db now cat) < n →
      category_posts db now sl (some n) =
        .renderCategory cat
          (pageItems (categoryList db now cat) (numPages (categoryList db now cat)))) ∧
    (∀ a, db.users.find? (fun x => x.username == un) = some a →
      numPages (profileList db usr now a) < n →
      profile db usr now un (some n) =
        .renderProfile a
          (pageItems (profileList db usr now a) (numPages (profileList db usr now a)))) ∧
    (∀ l : List Post, l ≠ [] → pageItems l (numPages l) ≠ []) := by
  refine ⟨?_, ?_, ?_, ?_, ?_, ?_, ?_⟩
  · simpa [index, pageOf] using length_getPage_le (indexList db now) pn
  · cases hf : db.categories.find? (fun c => c.is_published && c.slug == sl) with
    | none => simp [category_posts, hf, pageOf]
    | some cat =>
        simpa [category_posts, hf, pageOf] using
          length_getPage_le (categoryList db now cat) pn
  · cases hf : db.users.find? (fun x => x.username == un) with
    | none => simp [profile, hf, pageOf]
    | some a =>
        simpa [profile, hf, pageOf] using
          length_getPage_le (profileList db usr now a) pn
  · intro h
    simp [index, getPage_over h]
  · intro cat hf h
    simp [category_posts, hf, getPage_over h]
  · intro a hf h
    simp [profile, hf, getPage_over h]
  · intro l hl
    exact pageItems_last_ne_nil hl

/-- C7 witness: on the sample store, requesting page 99 of each listing
serves the last existing page, and each served page has at most 10 posts. -/
theorem C7_pagination_witness :
    (pageOf (index db0 5 (some 1))).length ≤ 10 ∧
    index db0 5 (some 99) =
      .renderIndex (pageItems (indexList db0 5) (numPages (indexList db0 5))) ∧
    category_posts db0 5 "tech" (some 99) =
      .renderCategory cat1
        (pageItems (categoryList db0 5 cat1) (numPages (categoryList db0 5 cat1))) ∧
    profile db0 none 5 "alice" (some 99) =
      .renderProfile u1
        (pageItems (profileList db0 none 5 u1) (numPages (profileList db0 none 5 u1))) ∧
    pageItems [p1] (numPages [p1]) ≠ [] := by
  refine ⟨(C7_pagination db0 none 5 "tech" "alice" (some 1) 99).1,
          (C7_pagination db0 none 5 "tech" "alice" (some 1) 99).2.2.2.1 (by decide),
          (C7_pagination db0 none 5 "tech" "alice" (some 1) 99).2.2.2.2.1 cat1
            (by decide) (by decide),
          (C7_pagination db0 none 5 "tech" "alice" (some 1) 99).2.2.2.2.2.1 u1
            (by decide) (by decide),
          (C7_pagination db0 none 5 "tech" "alice" (some 1) 99).2.2.2.2.2.2 [p1]
            (by decide)⟩

/-- C1: every post appearing in the `index` listing, in a
`category_posts` listing, or in a `profile` listing viewed by someone
other than the profile owner, is itself published, references a published
category, and has a publication date no later than the query time. -/
theorem C1_listing_visibility (db : DB) (now : Nat)
    (hnd : (db.categories.map (fun c => c.id)).Nodup)
    (pn : Option Nat) (p : Post) :
    (p ∈ pageOf (index db now pn) →
       p.is_published = true ∧
       (∃ c, findCategory db p.category = some c ∧ c.is_published = true) ∧
       p.pub_date ≤ now) ∧
    (∀ sl cat items, category_posts db now sl pn = .renderCategory cat items →
       p ∈ items →
       p.is_published = true ∧
       (∃ c, findCategory db p.category = some c ∧ c.is_published = true) ∧
       p.pub_date ≤ now) ∧
    (∀ usr un a items, profile db usr now un pn = .renderProfile a items →
       isUser usr a.id = false → p ∈ items →
       p.is_published = true ∧
       (∃ c, findCategory db p.category = some c ∧ c.is_published = true) ∧
       p.pub_date ≤ now) := by
  refine ⟨?_, ?_, ?_⟩
  · intro h
    have hmem : p ∈ db.posts.filter (publiclyVisible db now) :=
      mem_sortDesc.mp (mem_of_mem_getPage (by simpa [index, pageOf, indexList] using h))
    exact publiclyVisible_spec (List.mem_filter.mp hmem).2
  · intro sl cat items heq hp
    revert heq
    cases hf : db.categories.find? (fun c => c.is_published && c.slug == sl) with
    | none =>
        intro heq
        simp only [category_posts, hf] at heq
        exact Response.noConfusion heq
    | some cat' =>
        intro heq
        simp only [category_posts, hf, Response.renderCategory.injEq] at heq
        obtain ⟨rfl, hitems⟩ := heq
        have hp' : p ∈ getPage (categoryList db now cat') pn := hitems ▸ hp
        have hmem := mem_sortDesc.mp
          (show p ∈ sortDesc _ by simpa [categoryList] using mem_of_mem_getPage hp')
        have hpred := (List.mem_filter.mp hmem).2
        rw [Bool.and_eq_true, Bool.and_eq_true] at hpred
        obtain ⟨⟨hcid, hpub⟩, hdate⟩ := hpred
        have hcat_mem : cat' ∈ db.categories := List.mem_of_find?_eq_some hf
        have hcat_pub : cat'.is_published = true := by
          have := List.find?_some hf
          rw [Bool.and_eq_true] at this
          exact this.1
        have hfind : findCategory db p.category = some cat' := by
          unfold findCategory
          rw [eq_of_beq hcid]
          exact find?_key_of_nodup (fun c => c.id) hnd hcat_mem
        exact ⟨hpub, ⟨cat', hfind, hcat_pub⟩, of_decide_eq_true hdate⟩
  · intro usr un a items heq hown hp
    revert heq
    cases hf : db.users.find? (fun x => x.username == un) with
    | none =>
        intro heq
        simp only [profile, hf] at heq
        exact Response.noConfusion heq
    | some a' =>
        intro heq
        simp only [profile, hf, Response.renderProfile.injEq] at heq
        obtain ⟨rfl, hitems⟩ := heq
        rw [← hitems, profileList, if_neg (by rw [hown]; exact Bool.false_ne_true)] at hp
        have hmem := mem_sortDesc.mp (mem_of_mem_getPage hp)
        have hpred := (List.mem_filter.mp hmem).2
        rw [Bool.and_eq_true] at hpred
        exact publiclyVisible_spec hpred.2

/-- C1 witness: on the sample store at time 5, post 1 drawn from each of
the three listings is published, in a published category, and not
future-dated. -/
theorem C1_listing_visibility_witness :
    (p1.is_published = true ∧
      (∃ c, findCategory db0 p1.category = some c ∧ c.is_published = true) ∧
      p1.pub_date ≤ 5) ∧
    (p1.is_published = true ∧
      (∃ c, findCategory db0 p1.category = some c ∧ c.is_published = true) ∧
      p1.pub_date ≤ 5) ∧
    (p1.is_published = true ∧
      (∃ c, findCategory db0 p1.category = some c ∧ c.is_published = true) ∧
      p1.pub_date ≤ 5) :=
  ⟨(C1_listing_visibility db0 5 (by decide) (some 1) p1).1 (by decide),
   (C1_listing_visibility db0 5 (by decide) (some 1) p1).2.1 "tech" cat1
     (pageOf (category_posts db0 5 "tech" (some 1))) (by rfl) (by decide),
   (C1_listing_visibility db0 5 (by decide) (some 1) p1).2.2 (some u2) "alice" u1
     (pageOf (profile db0 (some u2) 5 "alice" (some 1))) (by rfl) (by decide) (by decide)⟩

/-- C2: an authenticated author is always served their own post by
`post_detail`, and their own profile listing contains the post on some
page — with no condition on `is_published`, the category's publication
flag, or a future `pub_date`. -/
theorem C2_author_access (db : DB) (now : Nat) (u : User) (p : Post)
    (hndp : (db.posts.map (fun x => x.id)).Nodup)
    (hp : p ∈ db.posts) (hauthor : p.author = u.id)
    (hu : db.users.find? (fun x => x.username == u.username) = some u) :
    post_detail db (some u) now p.id = .renderDetail p (commentsOf db p.id) ∧
    ∃ n, 1 ≤ n ∧ p ∈ pageOf (profile db (some u) now u.username (some n)) := by
  constructor
  · have hfind := find?_filter_key_of_nodup (fun x => x.id) hndp hp
      (fun q => publiclyVisible db now q || q.author == u.id)
      (by simp [hauthor])
    simp only [post_detail]
    rw [hfind]
  · have hlist : p ∈ profileList db (some u) now u := by
      rw [profileList, if_pos (by simp [isUser])]
      exact mem_sortDesc.mpr (List.mem_filter.mpr ⟨hp, by simp [hauthor]⟩)
    obtain ⟨n, h1, h2, h3⟩ := exists_page hlist
    refine ⟨n, h1, ?_⟩
    simp only [profile, hu, pageOf]
    rw [getPage_in_range h1 h2]
    exact h3

/-- C2 witness: alice's post 2 is unpublished, is in an unpublished
category and is future-dated at time 5, yet `post_detail` and `profile`
serve it to alice. -/
theorem C2_author_access_witness :
    post_detail db0 (some u1) 5 p2.id = .renderDetail p2 (commentsOf db0 p2.id) ∧
    ∃ n, 1 ≤ n ∧ p2 ∈ pageOf (profile db0 (some u1) 5 u1.username (some n)) :=
  C2_author_access db0 5 u1 p2 (by decide) (by decide) (by decide) (by decide)

/-- C3: an authenticated requester who does not own the targeted post or
comment gets a redirect to the post's detail page from the post
update/delete views and from `edit_comment`/`delete_comment`, and the
store is left exactly as it was. -/
theorem C3_nonauthor_noop (db : DB) (u : User) (method : Method)
    (pform : PostForm) (cform : CommentForm) :
    (∀ postId p, db.posts.find? (fun x => x.id == postId) = some p →
       p.author ≠ u.id →
       postUpdateView db (some u) method postId pform = (.redirect (.postDetail p.id), db) ∧
       postDeleteView db (some u) method postId = (.redirect (.postDetail p.id), db)) ∧
    (∀ postId commentId post comment,
       db.posts.find? (fun x => x.id == postId) = some post →
       db.comments.find? (fun c => c.id == commentId && c.post == post.id) = some comment →
       comment.author ≠ u.id →
       edit_comment db (some u) method postId commentId cform
         = (.redirect (.postDetail postId), db) ∧
       delete_comment db (some u) method postId commentId
         = (.redirect (.postDetail postId), db)) := by
  constructor
  · intro postId p hf hne
    have hb : isUser (some u) p.author = false := by
      simp only [isUser]
      exact beq_eq_false_iff_ne.mpr (fun h => hne h.symm)
    constructor
    · simp [postUpdateView, hf, hb]
    · simp [postDeleteView, hf, hb]
  · intro postId commentId post comment hfp hfc hne
    have hb : (comment.author == u.id) = false := beq_eq_false_iff_ne.mpr hne
    constructor
    · simp [edit_comment, hfp, hfc, hb]
    · simp [delete_comment, hfp, hfc, hb]

/-- C3 witness: bob may neither edit alice's post 1 (he is redirected to
its detail page) nor edit or delete alice's comment 2 on it, and the
sample store is unchanged. -/
theorem C3_nonauthor_noop_witness :
    (postUpdateView db0 (some u2) .POST 1 pform0 = (.redirect (.postDetail p1.id), db0) ∧
     postDeleteView db0 (some u2) .POST 1 = (.redirect (.postDetail p1.id), db0)) ∧
    (edit_comment db0 (some u2) .POST 1 2 cform0 = (.redirect (.postDetail 1), db0) ∧
     delete_comment db0 (some u2) .POST 1 2 = (.redirect (.postDetail 1), db0)) :=
  ⟨(C3_nonauthor_noop db0 u2 .POST pform0 cform0).1 1 p1 (by decide) (by decide),
   (C3_nonauthor_noop db0 u2 .POST pform0 cform0).2 1 2 p1 c2 (by decide) (by decide)
     (by decide)⟩

/-- C10: when the comment id does not belong to the given post (or either
identifier matches nothing), `edit_comment` and `delete_comment` respond
not-found and mutate nothing. -/
theorem C10_mismatched_ids_not_found (db : DB) (u : User) (method : Method)
    (postId commentId : Nat) (form : CommentForm)
    (h : (∀ p ∈ db.posts, p.id ≠ postId) ∨
         (∀ cm ∈ db.comments, cm.id = commentId → cm.post ≠ postId)) :
    edit_comment db (some u) method postId commentId form = (.notFound, db) ∧
    delete_comment db (some u) method postId commentId = (.notFound, db) := by
  rcases h with h | h
  · have hf : db.posts.find? (fun x => x.id == postId) = none := by
      rw [List.find?_eq_none]
      intro p hp hb
      exact h p hp (eq_of_beq hb)
    constructor
    · simp [edit_comment, hf]
    · simp [delete_comment, hf]
  · cases hfp : db.posts.find? (fun x => x.id == postId) with
    | none =>
        constructor
        · simp [edit_comment, hfp]
        · simp [delete_comment, hfp]
    | some post =>
        have hpid : post.id = postId := by
          have hb := List.find?_some hfp
          exact eq_of_beq (by simpa using hb)
        have hfc : db.comments.find?
            (fun c => c.id == commentId && c.post == post.id) = none := by
          rw [List.find?_eq_none]
          intro cm hcm hb
          rw [Bool.and_eq_true] at hb
          exact h cm hcm (eq_of_beq hb.1) (hpid ▸ eq_of_beq hb.2)
        constructor
        · simp [edit_comment, hfp, hfc]
        · simp [delete_comment, hfp, hfc]

/-- C10 witness: comment 3 exists but hangs off post 9, so editing or
deleting it through post 1's URL is not-found and mutates nothing. -/
theorem C10_mismatched_ids_not_found_witness :
    edit_comment db0 (some u1) .GET 1 3 cform0 = (.notFound, db0) ∧
    delete_comment db0 (some u1) .GET 1 3 = (.notFound, db0) :=
  C10_mismatched_ids_not_found db0 u1 .GET 1 3 cform0 (Or.inr (by decide))

/-- C4 counterexample: an unauthenticated request to the post update view
on the sample store is answered with a redirect to the post's detail
page, not with a redirect to the login page — the overridden `dispatch`
checks authorship before `LoginRequiredMixin` can run. -/
theorem C4_counterexample :
    ¬ ((postUpdateView db0 none .GET 1 pform0).1 = .redirect .login) := by
  decide

/-- C4 amended: unauthenticated requests to post creation, profile
editing and comment add/edit/delete redirect to login; unauthenticated
requests to post update/delete instead redirect to the target post's
detail page when the post exists (and are not-found when it does not). -/
theorem C4_unauthenticated_access (db : DB) (method : Method)
    (uform : UserForm) (pform : PostForm) (cform : CommentForm)
    (postId commentId : Nat) :
    postCreateView db none method pform = (.redirect .login, db) ∧
    edit_profile db none method uform = (.redirect .login, db) ∧
    add_comment db none method postId cform = (.redirect .login, db) ∧
    edit_comment db none method postId commentId cform = (.redirect .login, db) ∧
    delete_comment db none method postId commentId = (.redirect .login, db) ∧
    (∀ p, db.posts.find? (fun x => x.id == postId) = some p →
       postUpdateView db none method postId pform
         = (.redirect (.postDetail p.id), db) ∧
       postDeleteView db none method postId
         = (.redirect (.postDetail p.id), db)) ∧
    (db.posts.find? (fun x => x.id == postId) = none →
       postUpdateView db none method postId pform = (.notFound, db) ∧
       postDeleteView db none method postId = (.notFound, db)) := by
  refine ⟨rfl, rfl, rfl, rfl, rfl, ?_, ?_⟩
  · intro p hf
    constructor
    · simp [postUpdateView, hf, isUser]
    · simp [postDeleteView, hf, isUser]
  · intro hf
    constructor
    · simp [postUpdateView, hf]
    · simp [postDeleteView, hf]

/-- C4 amended witness: on the sample store, an anonymous update of
existing post 1 redirects to its detail page while post 99 is not-found,
and anonymous comment addition redirects to login. -/
theorem C4_unauthenticated_access_witness :
    add_comment db0 none .GET 1 cform0 = (.redirect .login, db0) ∧
    postUpdateView db0 none .GET 1 pform0 = (.redirect (.postDetail p1.id), db0) ∧
    postUpdateView db0 none .GET 99 pform0 = (.notFound, db0) :=
  ⟨(C4_unauthenticated_access db0 .GET uformBad pform0 cform0 1 1).2.2.1,
   ((C4_unauthenticated_access db0 .GET uformBad pform0 cform0 1 1).2.2.2.2.2.1
      p1 (by decide)).1,
   ((C4_unauthenticated_access db0 .GET uformBad pform0 cform0 99 1).2.2.2.2.2.2
      (by decide)).1⟩

/-- C5 counterexample: posting an invalid comment form to `add_comment`
does not re-render any form page — it responds with a redirect (the store
is indeed left unchanged). -/
theorem C5_counterexample :
    isRenderForm (add_comment db0 (some u1) .POST 1 cformBad).1 = false ∧
    (add_comment db0 (some u1) .POST 1 cformBad).2 = db0 := by
  constructor
  · decide
  · decide

/-- C5 amended: invalid submissions to `registration`, `edit_profile` and
`edit_comment` re-render the bound form page with its errors and leave
the store unchanged; an invalid submission to `add_comment` also leaves
the store unchanged but responds with a redirect to the post's detail
page instead of re-rendering the form. -/
theorem C5_invalid_form_handling (db : DB) (u : User) (rform : RegForm)
    (uform : UserForm) (cform : CommentForm) (postId commentId : Nat)
    (hr : rform.valid = false) (huf : uform.valid = false)
    (hc : cform.valid = false) :
    registration db .POST rform = (.renderForm .registrationForm true, db) ∧
    edit_profile db (some u) .POST uform = (.renderForm .userEdit true, db) ∧
    (∀ post comment,
       db.posts.find? (fun x => x.id == postId) = some post →
       db.comments.find? (fun c => c.id == commentId && c.post == post.id) = some comment →
       comment.author = u.id →
       edit_comment db (some u) .POST postId commentId cform
         = (.renderForm .commentPage true, db)) ∧
    (∀ post, db.posts.find? (fun x => x.id == postId) = some post →
       add_comment db (some u) .POST postId cform
         = (.redirect (.postDetail postId), db)) := by
  refine ⟨?_, ?_, ?_, ?_⟩
  · simp [registration, hr]
  · simp [edit_profile, huf]
  · intro post comment hfp hfc hca
    have hb : (comment.author == u.id) = true := by simp [hca]
    simp [edit_comment, hfp, hfc, hb, hc]
  · intro post hfp
    simp [add_comment, hfp, hc]

/-- C5 amended witness: on the sample store, invalid submissions to
registration, profile editing and comment editing re-render their form
pages unchanged-store, and an invalid comment addition redirects. -/
theorem C5_invalid_form_handling_witness :
    registration db0 .POST rformBad = (.renderForm .registrationForm true, db0) ∧
    edit_profile db0 (some u1) .POST uformBad = (.renderForm .userEdit true, db0) ∧
    edit_comment db0 (some u1) .POST 1 2 cformBad = (.renderForm .commentPage true, db0) ∧
    add_comment db0 (some u1) .POST 1 cformBad = (.redirect (.postDetail 1), db0) :=
  ⟨(C5_invalid_form_handling db0 u1 rformBad uformBad cformBad 1 2 rfl rfl rfl).1,
   (C5_invalid_form_handling db0 u1 rformBad uformBad cformBad 1 2 rfl rfl rfl).2.1,
   (C5_invalid_form_handling db0 u1 rformBad uformBad cformBad 1 2 rfl rfl rfl).2.2.1
     p1 c2 (by decide) (by decide) (by decide),
   (C5_invalid_form_handling db0 u1 rformBad uformBad cformBad 1 2 rfl rfl rfl).2.2.2
     p1 (by decide)⟩

/-- C6 counterexample: an unauthenticated GET to `add_comment` is met by
`login_required` first, so the response is a login redirect, not a
method-not-allowed rejection. -/
theorem C6_counterexample :
    ¬ ((add_comment db0 none .GET 1 cform0).1 = .methodNotAllowed) := by
  decide

/-- C6 amended: a GET to `add_comment` never creates a comment — an
authenticated GET gets method-not-allowed and an unauthenticated one a
login redirect — while an authenticated valid POST on an existing post
appends exactly one comment authored by the requester, raising the post's
comment count by exactly one, and redirects to the post's detail page. -/
theorem C6_add_comment_behavior (db : DB) (u : User) (postId : Nat)
    (form : CommentForm) :
    add_comment db (some u) .GET postId form = (.methodNotAllowed, db) ∧
    add_comment db none .GET postId form = (.redirect .login, db) ∧
    (∀ post, db.posts.find? (fun x => x.id == postId) = some post →
       form.valid = true →
       ∃ c : Comment,
         (add_comment db (some u) .POST postId form).2.comments
           = db.comments ++ [c] ∧
         c.author = u.id ∧ c.post = postId ∧
         (add_comment db (some u) .POST postId form).1
           = .redirect (.postDetail postId) ∧
         (commentsOf (add_comment db (some u) .POST postId form).2 postId).length
           = (commentsOf db postId).length + 1) := by
  refine ⟨rfl, rfl, ?_⟩
  intro post hfp hv
  have hpid : post.id = postId := by
    have hb := List.find?_some hfp
    exact eq_of_beq (by simpa using hb)
  refine ⟨⟨freshId (db.comments.map (fun x => x.id)), u.id, post.id, form.text⟩,
          ?_, rfl, hpid, ?_, ?_⟩
  · simp [add_comment, hfp, hv]
  · simp [add_comment, hfp, hv]
  · simp [add_comment, hfp, hv, commentsOf, List.filter_append, hpid]

/-- C6 amended witness: bob's valid comment on post 1 of the sample store
raises its comment count by one; GETs create nothing. -/
theorem C6_add_comment_behavior_witness :
    add_comment db0 (some u2) .GET 1 cform0 = (.methodNotAllowed, db0) ∧
    ∃ c : Comment,
      (add_comment db0 (some u2) .POST 1 cform0).2.comments
        = db0.comments ++ [c] ∧
      c.author = u2.id ∧ c.post = 1 ∧
      (add_comment db0 (some u2) .POST 1 cform0).1 = .redirect (.postDetail 1) ∧
      (commentsOf (add_comment db0 (some u2) .POST 1 cform0).2 1).length
        = (commentsOf db0 1).length + 1 :=
  ⟨(C6_add_comment_behavior db0 u2 1 cform0).1,
   (C6_add_comment_behavior db0 u2 1 cform0).2.2 p1 (by decide) rfl⟩

end Blogicum
